import Mathlib

/-!
Shallow embedding of `src/virus-dynamics.py`.

Python floats are modelled as rationals, the process-wide uniform random
source as explicit lists of draws in `[0,1)` (one draw per call of
`random.random()`, in call order), and `NoChildException` as `Option`
(`none` = the exception was raised).  A `ZeroDivisionError` in `update`
(division by `maxPop = 0`) is modelled by `update` returning `none`.
-/

/-- A `SimpleVirus`: `maxBirthProb` and `clearProb` saved by `__init__`. -/
structure SimpleVirus where
  maxBirthProb : ℚ
  clearProb : ℚ
deriving DecidableEq

def SimpleVirus.getMaxBirthProb (v : SimpleVirus) : ℚ := v.maxBirthProb

def SimpleVirus.getClearProb (v : SimpleVirus) : ℚ := v.clearProb

/-- `doesClear`: one uniform draw; `True` iff `random.random() <= self.getClearProb()`. -/
def SimpleVirus.doesClear (v : SimpleVirus) (draw : ℚ) : Bool :=
  draw ≤ v.getClearProb

/-- `SimpleVirus.reproduce`: reproduces iff the draw is `<= maxBirthProb * (1 - popDensity)`;
`none` models the raised `NoChildException`. -/
def SimpleVirus.reproduce (v : SimpleVirus) (popDensity : ℚ) (draw : ℚ) :
    Option SimpleVirus :=
  let repProb := v.getMaxBirthProb * (1 - popDensity)
  if draw ≤ repProb then
    some ⟨v.getMaxBirthProb, v.getClearProb⟩
  else
    none

/-- A `ResistantVirus`: fields saved by `__init__` (in Python, `resistances` is a
dict from drug name to `bool`; dicts iterate keys in insertion order, so it is
modelled as an association list with that key order). -/
structure ResistantVirus where
  maxBirthProb : ℚ
  clearProb : ℚ
  resistances : List (String × Bool)
  mutProb : ℚ
deriving DecidableEq

def ResistantVirus.getMaxBirthProb (v : ResistantVirus) : ℚ := v.maxBirthProb

def ResistantVirus.getClearProb (v : ResistantVirus) : ℚ := v.clearProb

def ResistantVirus.getResistances (v : ResistantVirus) : List (String × Bool) :=
  v.resistances

def ResistantVirus.getMutProb (v : ResistantVirus) : ℚ := v.mutProb

/-- `doesClear` is inherited unchanged from `SimpleVirus`. -/
def ResistantVirus.doesClear (v : ResistantVirus) (draw : ℚ) : Bool :=
  draw ≤ v.getClearProb

/-- Python `dict.get(key)`: the stored value, or `None` when the key is absent. -/
def dictGet : List (String × Bool) → String → Option Bool
  | [], _ => none
  | kb :: rest, key => if kb.1 = key then some kb.2 else dictGet rest key

/-- `isResistantTo`: `self.resistances.get(drug)` — an `Option Bool`, `none` for a
drug name absent from the map. -/
def ResistantVirus.isResistantTo (v : ResistantVirus) (drug : String) : Option Bool :=
  dictGet v.getResistances drug

/-- Python truthiness of an `Optional[bool]`: `None` and `False` are falsy. -/
def truthy : Option Bool → Bool
  | some b => b
  | none => false

/-- The mutation loop of `ResistantVirus.reproduce`: for each drug key of the
(copied) resistances, one uniform draw; the trait flips iff the draw is
`<= mutProb`.  Keys are visited in dict order, consuming one draw each. -/
def mutateResistances : List (String × Bool) → ℚ → List ℚ → List (String × Bool)
  | [], _, _ => []
  | kb :: rest, _, [] => kb :: rest
  | kb :: rest, mp, d :: ds =>
      (kb.1, if d ≤ mp then !kb.2 else kb.2) :: mutateResistances rest mp ds

/-- `ResistantVirus.reproduce`: the drug-gate loop sets `drugsAreEffective` when some
active drug has a falsy `isResistantTo` result; if the gate blocks, raise
(`none`); otherwise reproduce with threshold `maxBirthProb * (1 - popDensity)`,
mutating each resistance trait independently.  `draw` is the reproduction draw,
`mutDraws` the per-key mutation draws. -/
def ResistantVirus.reproduce (v : ResistantVirus) (popDensity : ℚ)
    (activeDrugs : List String) (draw : ℚ) (mutDraws : List ℚ) :
    Option ResistantVirus :=
  let drugsAreEffective :=
    activeDrugs.foldl
      (fun eff drug => if !(truthy (v.isResistantTo drug)) then true else eff) false
  if drugsAreEffective then
    none
  else
    let repProb := v.getMaxBirthProb * (1 - popDensity)
    if draw ≤ repProb then
      some ⟨v.getMaxBirthProb, v.getClearProb,
            mutateResistances v.getResistances v.getMutProb mutDraws, v.getMutProb⟩
    else
      none

/-- The clearance loop shared by both `update` methods: iterate the pre-step
population (zipped with one clearance draw per particle) and `list.remove` each
particle that clears from the working copy `acc` (initially the full copy). -/
def clearLoop {α : Type} [DecidableEq α] (dc : α → ℚ → Bool) :
    List (α × ℚ) → List α → List α
  | [], acc => acc
  | vd :: rest, acc =>
      clearLoop dc rest (if dc vd.1 vd.2 then acc.erase vd.1 else acc)

/-- Specification-side survivors: each pre-step particle survives iff its own
clearance draw says so (independent per-particle decisions). -/
def survivorsSpec {α : Type} (dc : α → ℚ → Bool) (l : List (α × ℚ)) : List α :=
  l.filterMap (fun vd => if dc vd.1 vd.2 then none else some vd.1)

/-- Specification-side cleared particles (complement of `survivorsSpec`). -/
def clearedSpec {α : Type} (dc : α → ℚ → Bool) (l : List (α × ℚ)) : List α :=
  l.filterMap (fun vd => if dc vd.1 vd.2 then some vd.1 else none)

/-- A `Patient`: `__init__` saves `viruses` and `maxPop` as given (no validation). -/
structure Patient where
  viruses : List SimpleVirus
  maxPop : ℤ
deriving DecidableEq

def Patient.init (viruses : List SimpleVirus) (maxPop : ℤ) : Patient :=
  ⟨viruses, maxPop⟩

def Patient.getViruses (p : Patient) : List SimpleVirus := p.viruses

def Patient.getMaxPop (p : Patient) : ℤ := p.maxPop

def Patient.getTotalPop (p : Patient) : ℕ := p.viruses.length

/-- One time step of `Patient.update`.  `cds` are the clearance draws (one per
pre-step particle, in list order), `rds` the reproduction draws (one per
survivor, in order).  Returns the post-step patient together with the returned
population count, or `none` when the density computation divides by
`maxPop = 0` (Python `ZeroDivisionError`). -/
def Patient.update (p : Patient) (cds rds : List ℚ) : Option (Patient × ℕ) :=
  let viruses_survived := clearLoop SimpleVirus.doesClear (p.getViruses.zip cds) p.getViruses
  if p.getMaxPop = 0 then
    none
  else
    let popDensity : ℚ := (viruses_survived.length : ℚ) / (p.getMaxPop : ℚ)
    let viruses_produced :=
      (viruses_survived.zip rds).filterMap (fun vd => vd.1.reproduce popDensity vd.2)
    let newViruses := viruses_survived ++ viruses_produced
    some (⟨newViruses, p.getMaxPop⟩, newViruses.length)

/-- The driver loop (`simulationWithoutDrug`): run `update` once per entry of
`steps`, threading the patient state; `none` as soon as a step raises. -/
def Patient.run : Patient → List (List ℚ × List ℚ) → Option Patient
  | p, [] => some p
  | p, s :: rest =>
      match p.update s.1 s.2 with
      | none => none
      | some pr => Patient.run pr.1 rest

/-- A `TreatedPatient`: `__init__` saves `viruses` and `maxPop` and starts with an
empty prescription list. -/
structure TreatedPatient where
  viruses : List ResistantVirus
  maxPop : ℤ
  prescriptions : List String
deriving DecidableEq

def TreatedPatient.init (viruses : List ResistantVirus) (maxPop : ℤ) : TreatedPatient :=
  ⟨viruses, maxPop, []⟩

def TreatedPatient.getViruses (p : TreatedPatient) : List ResistantVirus := p.viruses

def TreatedPatient.getMaxPop (p : TreatedPatient) : ℤ := p.maxPop

def TreatedPatient.getTotalPop (p : TreatedPatient) : ℕ := p.viruses.length

def TreatedPatient.getPrescriptions (p : TreatedPatient) : List String :=
  p.prescriptions

/-- `addPrescription`: append the drug iff it is not already prescribed. -/
def TreatedPatient.addPrescription (p : TreatedPatient) (newDrug : String) :
    TreatedPatient :=
  if newDrug ∈ p.getPrescriptions then p
  else ⟨p.viruses, p.maxPop, p.prescriptions ++ [newDrug]⟩

/-- `getResistPop`: per particle, when `drugResist` is non-empty, check every
listed drug with `isResistantTo` (a falsy result clears the flag) and count the
particle when the flag stands; an empty `drugResist` counts nothing. -/
def TreatedPatient.getResistPop (p : TreatedPatient) (drugResist : List String) : ℕ :=
  p.getViruses.foldl
    (fun numResistantViruses virus =>
      if drugResist.length > 0 then
        if drugResist.foldl
            (fun virusIsResistant drug =>
              if !(truthy (virus.isResistantTo drug)) then false else virusIsResistant)
            true then
          numResistantViruses + 1
        else numResistantViruses
      else numResistantViruses)
    0

/-- One time step of `TreatedPatient.update`: as for `Patient.update`, but each
survivor's reproduction call receives the current prescriptions and one
reproduction draw plus per-key mutation draws. -/
def TreatedPatient.update (p : TreatedPatient) (cds : List ℚ)
    (rds : List (ℚ × List ℚ)) : Option (TreatedPatient × ℕ) :=
  let viruses_survived := clearLoop ResistantVirus.doesClear (p.getViruses.zip cds) p.getViruses
  if p.getMaxPop = 0 then
    none
  else
    let popDensity : ℚ := (viruses_survived.length : ℚ) / (p.getMaxPop : ℚ)
    let viruses_produced :=
      (viruses_survived.zip rds).filterMap
        (fun vd => vd.1.reproduce popDensity p.getPrescriptions vd.2.1 vd.2.2)
    let newViruses := viruses_survived ++ viruses_produced
    some (⟨newViruses, p.getMaxPop, p.prescriptions⟩, newViruses.length)

/-- The driver loop (`simulationWithDrug`): repeated `TreatedPatient.update`. -/
def TreatedPatient.run : TreatedPatient → List (List ℚ × List (ℚ × List ℚ)) →
    Option TreatedPatient
  | p, [] => some p
  | p, s :: rest =>
      match p.update s.1 s.2 with
      | none => none
      | some pr => TreatedPatient.run pr.1 rest

lemma count_survivors_add_cleared {α : Type} [DecidableEq α] (dc : α → ℚ → Bool)
    (l : List (α × ℚ)) (a : α) :
    (survivorsSpec dc l).count a + (clearedSpec dc l).count a
      = (l.map Prod.fst).count a := by
  induction l with
  | nil => simp [survivorsSpec, clearedSpec]
  | cons vd rest ih =>
      cases hd : dc vd.1 vd.2 <;>
        simp [survivorsSpec, clearedSpec, hd, List.count_cons, beq_iff_eq] at ih ⊢ <;>
        split <;> omega

lemma clearLoop_count {α : Type} [DecidableEq α] (dc : α → ℚ → Bool) :
    ∀ (l : List (α × ℚ)) (acc : List α) (a : α),
      (clearedSpec dc l).count a ≤ acc.count a →
      (clearLoop dc l acc).count a = acc.count a - (clearedSpec dc l).count a := by
  intro l
  induction l with
  | nil => intro acc a _; simp [clearLoop, clearedSpec]
  | cons vd rest ih =>
      intro acc a h
      cases hd : dc vd.1 vd.2
      · have hcl : clearedSpec dc (vd :: rest) = clearedSpec dc rest := by
          simp [clearedSpec, List.filterMap_cons, hd]
        rw [hcl] at h
        have hrec := ih acc a h
        simp only [clearLoop, hd, Bool.false_eq_true, if_neg, hcl]
        exact hrec
      · have hcl : clearedSpec dc (vd :: rest) = vd.1 :: clearedSpec dc rest := by
          simp [clearedSpec, List.filterMap_cons, hd]
        rw [hcl] at h
        simp only [List.count_cons, beq_iff_eq] at h
        have herase : (acc.erase vd.1).count a
            = acc.count a - if vd.1 = a then 1 else 0 := by
          have := List.count_erase a vd.1 acc
          simpa [beq_iff_eq] using this
        have hle : (clearedSpec dc rest).count a ≤ (acc.erase vd.1).count a := by
          rw [herase]
          by_cases hva : vd.1 = a <;> simp [hva] at h ⊢ <;> omega
        have hrec := ih (acc.erase vd.1) a hle
        simp only [clearLoop, hd, if_pos, hcl, List.count_cons, beq_iff_eq]
        rw [hrec, herase]
        by_cases hva : vd.1 = a
        · simp [hva] at h ⊢
          omega
        · simp [hva] at h ⊢

lemma clearLoop_perm {α : Type} [DecidableEq α] (dc : α → ℚ → Bool)
    (vs : List α) (ds : List ℚ) (h : ds.length = vs.length) :
    List.Perm (clearLoop dc (vs.zip ds) vs) (survivorsSpec dc (vs.zip ds)) := by
  rw [List.perm_iff_count]
  intro a
  have hmap : (vs.zip ds).map Prod.fst = vs :=
    List.map_fst_zip vs ds (le_of_eq h.symm)
  have hsplit := count_survivors_add_cleared dc (vs.zip ds) a
  rw [hmap] at hsplit
  have hle : (clearedSpec dc (vs.zip ds)).count a ≤ vs.count a := by omega
  have := clearLoop_count dc (vs.zip ds) vs a hle
  omega

/-- When no processed particle clears, the removal loop leaves the working copy
untouched. -/
lemma clearLoop_id {α : Type} [DecidableEq α] (dc : α → ℚ → Bool) :
    ∀ (l : List (α × ℚ)) (acc : List α),
      (∀ vd ∈ l, dc vd.1 vd.2 = false) → clearLoop dc l acc = acc := by
  intro l
  induction l with
  | nil => intro acc _; rfl
  | cons vd rest ih =>
      intro acc h
      have hd : dc vd.1 vd.2 = false := h vd (List.mem_cons_self vd rest)
      simp only [clearLoop, hd, Bool.false_eq_true, if_neg]
      exact ih acc (fun x hx => h x (List.mem_cons_of_mem vd hx))

/-- When every processed particle clears, no particle survives the loop. -/
lemma clearLoop_eq_nil {α : Type} [DecidableEq α] (dc : α → ℚ → Bool)
    (vs : List α) (ds : List ℚ) (hlen : ds.length = vs.length)
    (h : ∀ vd ∈ vs.zip ds, dc vd.1 vd.2 = true) :
    clearLoop dc (vs.zip ds) vs = [] := by
  have hperm := clearLoop_perm dc vs ds hlen
  have hspec : survivorsSpec dc (vs.zip ds) = [] := by
    unfold survivorsSpec
    rw [List.filterMap_eq_nil_iff]
    intro vd hvd
    simp [h vd hvd]
  rw [hspec] at hperm
  have := hperm.length_eq
  simpa [List.length_eq_zero] using this

/-- Any member of the offspring staging list produced by zipping a survivor list
with draws comes from some survivor and some draw. -/
lemma mem_filterMap_zip {α β γ : Type} (f : α → β → Option γ)
    (S : List α) (rs : List β) (c : γ)
    (hc : c ∈ (S.zip rs).filterMap (fun vd => f vd.1 vd.2)) :
    ∃ v ∈ S, ∃ d ∈ rs, f v d = some c := by
  rcases List.mem_filterMap.mp hc with ⟨vd, hmem, hf⟩
  rcases List.of_mem_zip hmem with ⟨hv, hd⟩
  exact ⟨vd.1, hv, vd.2, hd, hf⟩

/-! ## Helper lemmas about the boolean accumulator loops -/

lemma foldl_or_eq_any {α : Type} (p : α → Bool) (l : List α) :
    ∀ b : Bool, l.foldl (fun eff x => if p x then true else eff) b = (b || l.any p) := by
  induction l with
  | nil => intro b; simp
  | cons x xs ih =>
      intro b
      rw [List.foldl_cons, ih]
      cases hx : p x <;> cases b <;> simp [hx]

lemma foldl_and_eq_all {α : Type} (p : α → Bool) (l : List α) :
    ∀ b : Bool, l.foldl (fun flag x => if !(p x) then false else flag) b
      = (b && l.all p) := by
  induction l with
  | nil => intro b; simp
  | cons x xs ih =>
      intro b
      rw [List.foldl_cons, ih]
      cases hx : p x <;> cases b <;> simp [hx]

lemma foldl_count_eq_countP {α : Type} (q : α → Bool) (l : List α) :
    ∀ n : ℕ, l.foldl (fun k x => if q x then k + 1 else k) n = n + l.countP q := by
  induction l with
  | nil => intro n; simp
  | cons x xs ih =>
      intro n
      rw [List.foldl_cons, ih]
      cases hx : q x <;> simp [hx, List.countP_cons]
      omega

/-! ## Characterizations of the treated-patient queries -/

lemma getResistPop_eq (p : TreatedPatient) (drugResist : List String) :
    p.getResistPop drugResist
      = if drugResist.isEmpty then 0
        else p.viruses.countP
          (fun v => drugResist.all (fun drug => truthy (v.isResistantTo drug))) := by
  unfold TreatedPatient.getResistPop TreatedPatient.getViruses
  cases drugResist with
  | nil =>
      simp only [List.length_nil, gt_iff_lt, Nat.lt_irrefl, if_false, List.isEmpty_nil,
        if_true]
      induction p.viruses with
      | nil => rfl
      | cons v vs ih => simp only [List.foldl_cons]; exact ih
  | cons d ds =>
      simp only [List.isEmpty_cons, Bool.false_eq_true, if_false,
        List.length_cons, gt_iff_lt, Nat.zero_lt_succ, if_true]
      have hinner : ∀ v : ResistantVirus,
          (d :: ds).foldl
            (fun virusIsResistant drug =>
              if !(truthy (v.isResistantTo drug)) then false else virusIsResistant)
            true
          = (d :: ds).all (fun drug => truthy (v.isResistantTo drug)) := by
        intro v
        rw [foldl_and_eq_all]
        simp
      simp only [hinner]
      rw [foldl_count_eq_countP]
      simp

lemma prescriptions_mem_addPrescription (p : TreatedPatient) (d d' : String)
    (h : d ∈ p.prescriptions) : d ∈ (p.addPrescription d').prescriptions := by
  unfold TreatedPatient.addPrescription TreatedPatient.getPrescriptions
  split
  · exact h
  · simp [h]

/-! ## The drug gate of the resistant-virus reproduction -/

lemma reproduce_blocked (v : ResistantVirus) (pd : ℚ) (drugs : List String)
    (d : ℚ) (mds : List ℚ) (drug : String) (hmem : drug ∈ drugs)
    (hnr : truthy (v.isResistantTo drug) = false) :
    v.reproduce pd drugs d mds = none := by
  unfold ResistantVirus.reproduce
  have hany : drugs.any (fun dr => !(truthy (v.isResistantTo dr))) = true :=
    List.any_eq_true.mpr ⟨drug, hmem, by simp [hnr]⟩
  rw [foldl_or_eq_any]
  simp [hany]

lemma reproduce_gate_pass (v : ResistantVirus) (pd : ℚ) (drugs : List String)
    (d : ℚ) (mds : List ℚ)
    (hall : ∀ dr ∈ drugs, truthy (v.isResistantTo dr) = true) :
    v.reproduce pd drugs d mds
      = if d ≤ v.maxBirthProb * (1 - pd) then
          some ⟨v.maxBirthProb, v.clearProb,
                mutateResistances v.resistances v.mutProb mds, v.mutProb⟩
        else none := by
  unfold ResistantVirus.reproduce
  have hany : drugs.any (fun dr => !(truthy (v.isResistantTo dr))) = false := by
    rw [List.any_eq_false]
    intro dr hdr
    simp [hall dr hdr]
  rw [foldl_or_eq_any]
  simp only [Bool.false_or, hany, Bool.false_eq_true, if_neg]
  rfl

/-! ## The resistance dictionary and the mutation loop -/

lemma dictGet_eq_none (res : List (String × Bool)) (drug : String)
    (h : drug ∉ res.map Prod.fst) : dictGet res drug = none := by
  induction res with
  | nil => rfl
  | cons kb rest ih =>
      simp only [List.map_cons, List.mem_cons, not_or] at h
      unfold dictGet
      rw [if_neg (fun hk => h.1 (hk.symm))]
      exact ih h.2

lemma mutateResistances_map_fst :
    ∀ (res : List (String × Bool)) (mp : ℚ) (ds : List ℚ),
      (mutateResistances res mp ds).map Prod.fst = res.map Prod.fst := by
  intro res
  induction res with
  | nil => intro mp ds; rfl
  | cons kb rest ih =>
      intro mp ds
      cases ds with
      | nil => rfl
      | cons d dtl => simp [mutateResistances, ih]

lemma mutateResistances_get :
    ∀ (res : List (String × Bool)) (mp : ℚ) (ds : List ℚ) (i : ℕ)
      (h1 : i < res.length) (h2 : i < ds.length)
      (h3 : i < (mutateResistances res mp ds).length),
      (mutateResistances res mp ds).get ⟨i, h3⟩
        = ((res.get ⟨i, h1⟩).1,
           if ds.get ⟨i, h2⟩ ≤ mp then !(res.get ⟨i, h1⟩).2
           else (res.get ⟨i, h1⟩).2) := by
  intro res
  induction res with
  | nil => intro mp ds i h1 h2 h3; simp at h1
  | cons kb rest ih =>
      intro mp ds i h1 h2 h3
      cases ds with
      | nil => simp at h2
      | cons d dtl =>
          cases i with
          | zero => simp [mutateResistances]
          | succ n =>
              simp only [mutateResistances, List.get_cons_succ]
              apply ih

/-! ## Step lemmas for degenerate probability settings -/

lemma patient_update_invariant (vs : List SimpleVirus) (mp : ℤ) (cds rds : List ℚ)
    (hmp : mp ≠ 0)
    (hv : ∀ v ∈ vs, v.clearProb = 0 ∧ v.maxBirthProb = 0)
    (hc : ∀ d ∈ cds, 0 < d) (hr : ∀ d ∈ rds, 0 < d) :
    Patient.update ⟨vs, mp⟩ cds rds = some (⟨vs, mp⟩, vs.length) := by
  have hclear : clearLoop SimpleVirus.doesClear (vs.zip cds) vs = vs := by
    apply clearLoop_id
    intro vd hvd
    rcases List.of_mem_zip hvd with ⟨hv1, hd1⟩
    have h1 := (hv vd.1 hv1).1
    have h2 := hc vd.2 hd1
    simp only [SimpleVirus.doesClear, SimpleVirus.getClearProb, h1,
      decide_eq_false_iff_not, not_le]
    exact h2
  have hrep : ∀ pd : ℚ, (vs.zip rds).filterMap
      (fun vd => vd.1.reproduce pd vd.2) = [] := by
    intro pd
    rw [List.filterMap_eq_nil_iff]
    intro vd hvd
    rcases List.of_mem_zip hvd with ⟨hv1, hd1⟩
    have h1 := (hv vd.1 hv1).2
    have h2 := hr vd.2 hd1
    simp only [SimpleVirus.reproduce, SimpleVirus.getMaxBirthProb, h1,
      SimpleVirus.getClearProb, zero_mul, ite_eq_right_iff]
    intro hle
    exact absurd (lt_of_lt_of_le h2 hle) (lt_irrefl 0)
  simp [Patient.update, Patient.getViruses, Patient.getMaxPop, hclear, hmp, hrep]

lemma treated_update_invariant (vs : List ResistantVirus) (mp : ℤ)
    (pres : List String) (cds : List ℚ) (rds : List (ℚ × List ℚ))
    (hmp : mp ≠ 0)
    (hv : ∀ v ∈ vs, v.clearProb = 0 ∧ v.maxBirthProb = 0)
    (hc : ∀ d ∈ cds, 0 < d) (hr : ∀ d ∈ rds, 0 < d.1) :
    TreatedPatient.update ⟨vs, mp, pres⟩ cds rds = some (⟨vs, mp, pres⟩, vs.length) := by
  have hclear : clearLoop ResistantVirus.doesClear (vs.zip cds) vs = vs := by
    apply clearLoop_id
    intro vd hvd
    rcases List.of_mem_zip hvd with ⟨hv1, hd1⟩
    have h1 := (hv vd.1 hv1).1
    have h2 := hc vd.2 hd1
    simp only [ResistantVirus.doesClear, ResistantVirus.getClearProb, h1,
      decide_eq_false_iff_not, not_le]
    exact h2
  have hrep : ∀ pd : ℚ, (vs.zip rds).filterMap
      (fun vd => vd.1.reproduce pd pres vd.2.1 vd.2.2) = [] := by
    intro pd
    rw [List.filterMap_eq_nil_iff]
    intro vd hvd
    rcases List.of_mem_zip hvd with ⟨hv1, hd1⟩
    have h1 := (hv vd.1 hv1).2
    have h2 := hr vd.2 hd1
    unfold ResistantVirus.reproduce
    dsimp only
    split
    · rfl
    · simp only [ResistantVirus.getMaxBirthProb, h1, zero_mul, ite_eq_right_iff]
      intro hle
      exact absurd (lt_of_lt_of_le h2 hle) (lt_irrefl 0)
  simp [TreatedPatient.update, TreatedPatient.getViruses, TreatedPatient.getMaxPop,
    TreatedPatient.getPrescriptions, hclear, hmp, hrep]

lemma patient_update_all_clear (vs : List SimpleVirus) (mp : ℤ) (cds rds : List ℚ)
    (hmp : mp ≠ 0) (hlen : cds.length = vs.length)
    (hd : ∀ d ∈ cds, d < 1) (hv : ∀ v ∈ vs, v.clearProb = 1) :
    Patient.update ⟨vs, mp⟩ cds rds = some (⟨[], mp⟩, 0) := by
  have hclear : clearLoop SimpleVirus.doesClear (vs.zip cds) vs = [] := by
    apply clearLoop_eq_nil SimpleVirus.doesClear vs cds hlen
    intro vd hvd
    rcases List.of_mem_zip hvd with ⟨hv1, hd1⟩
    have h1 := hv vd.1 hv1
    have h2 := hd vd.2 hd1
    simp only [SimpleVirus.doesClear, SimpleVirus.getClearProb, h1, decide_eq_true_eq]
    exact le_of_lt h2
  simp [Patient.update, Patient.getViruses, Patient.getMaxPop, hclear, hmp]

lemma treated_update_all_clear (vs : List ResistantVirus) (mp : ℤ)
    (pres : List String) (cds : List ℚ) (rds : List (ℚ × List ℚ))
    (hmp : mp ≠ 0) (hlen : cds.length = vs.length)
    (hd : ∀ d ∈ cds, d < 1) (hv : ∀ v ∈ vs, v.clearProb = 1) :
    TreatedPatient.update ⟨vs, mp, pres⟩ cds rds = some (⟨[], mp, pres⟩, 0) := by
  have hclear : clearLoop ResistantVirus.doesClear (vs.zip cds) vs = [] := by
    apply clearLoop_eq_nil ResistantVirus.doesClear vs cds hlen
    intro vd hvd
    rcases List.of_mem_zip hvd with ⟨hv1, hd1⟩
    have h1 := hv vd.1 hv1
    have h2 := hd vd.2 hd1
    simp only [ResistantVirus.doesClear, ResistantVirus.getClearProb, h1,
      decide_eq_true_eq]
    exact le_of_lt h2
  simp [TreatedPatient.update, TreatedPatient.getViruses, TreatedPatient.getMaxPop,
    hclear, hmp]

lemma patient_run_invariant (vs : List SimpleVirus) (mp : ℤ)
    (steps : List (List ℚ × List ℚ)) (hmp : mp ≠ 0)
    (hv : ∀ v ∈ vs, v.clearProb = 0 ∧ v.maxBirthProb = 0)
    (hsteps : ∀ s ∈ steps, (∀ d ∈ s.1, 0 < d) ∧ (∀ d ∈ s.2, 0 < d)) :
    Patient.run ⟨vs, mp⟩ steps = some ⟨vs, mp⟩ := by
  induction steps with
  | nil => rfl
  | cons s rest ih =>
      have hs := hsteps s (List.mem_cons_self s rest)
      have hstep := patient_update_invariant vs mp s.1 s.2 hmp hv hs.1 hs.2
      simp only [Patient.run, hstep]
      exact ih (fun x hx => hsteps x (List.mem_cons_of_mem s hx))

lemma treated_run_invariant (vs : List ResistantVirus) (mp : ℤ) (pres : List String)
    (steps : List (List ℚ × List (ℚ × List ℚ))) (hmp : mp ≠ 0)
    (hv : ∀ v ∈ vs, v.clearProb = 0 ∧ v.maxBirthProb = 0)
    (hsteps : ∀ s ∈ steps, (∀ d ∈ s.1, 0 < d) ∧ (∀ d ∈ s.2, 0 < d.1)) :
    TreatedPatient.run ⟨vs, mp, pres⟩ steps = some ⟨vs, mp, pres⟩ := by
  induction steps with
  | nil => rfl
  | cons s rest ih =>
      have hs := hsteps s (List.mem_cons_self s rest)
      have hstep := treated_update_invariant vs mp pres s.1 s.2 hmp hv hs.1 hs.2
      simp only [TreatedPatient.run, hstep]
      exact ih (fun x hx => hsteps x (List.mem_cons_of_mem s hx))

lemma truthy_eq_true_iff (o : Option Bool) : truthy o = true ↔ o = some true := by
  cases o with
  | none => simp [truthy]
  | some b => cases b <;> simp [truthy]

lemma truthy_eq_false_iff (o : Option Bool) : truthy o = false ↔ o ≠ some true := by
  cases o with
  | none => simp [truthy]
  | some b => cases b <;> simp [truthy]

/-! ## Claim theorems -/

/-- Claim C7: `getResistPop(drugList)` returns the number of particles in the
current population resistant to every drug in `drugList` (i.e. whose stored
resistance is `true` for each listed drug), and returns `0` whenever `drugList`
is empty — even for non-empty populations. -/
theorem getResistPop_counts_fully_resistant (tp : TreatedPatient)
    (drugList : List String) :
    tp.getResistPop drugList
      = if drugList.isEmpty then 0
        else tp.viruses.countP
          (fun v => decide (∀ dr ∈ drugList, v.isResistantTo dr = some true)) := by
  rw [getResistPop_eq]
  cases drugList with
  | nil => rfl
  | cons d ds =>
      simp only [List.isEmpty_cons, Bool.false_eq_true, if_false]
      apply List.countP_congr
      intro v _
      rw [List.all_eq_true]
      constructor
      · intro h
        rw [decide_eq_true_iff]
        intro dr hdr
        exact (truthy_eq_true_iff _).mp (h dr hdr)
      · intro h dr hdr
        rw [decide_eq_true_iff] at h
        exact (truthy_eq_true_iff _).mpr (h dr hdr)

/-- Claim C8: `addPrescription` is idempotent (a second call with the same drug
name changes nothing, so `getPrescriptions()` keeps the same length and
contents), each added drug is present afterwards, no `addPrescription` call
removes an already-present drug, and `update` never changes the prescription
list — so a prescribed drug stays active for all subsequent steps. -/
theorem addPrescription_idempotent_and_monotone (tp : TreatedPatient)
    (d d' : String) (cds : List ℚ) (rds : List (ℚ × List ℚ))
    (tp' : TreatedPatient) (n : ℕ) :
    (tp.addPrescription d).addPrescription d = tp.addPrescription d
    ∧ d ∈ (tp.addPrescription d).getPrescriptions
    ∧ (d ∈ tp.getPrescriptions → d ∈ (tp.addPrescription d').getPrescriptions)
    ∧ (tp.update cds rds = some (tp', n) →
        tp'.getPrescriptions = tp.getPrescriptions) := by
  have hmem : d ∈ (tp.addPrescription d).getPrescriptions := by
    unfold TreatedPatient.addPrescription TreatedPatient.getPrescriptions
    split
    · next h => exact h
    · simp
  have hid : ∀ q : TreatedPatient, d ∈ q.getPrescriptions → q.addPrescription d = q := by
    intro q hq
    unfold TreatedPatient.addPrescription
    rw [if_pos hq]
  refine ⟨hid _ hmem, hmem, ?_, ?_⟩
  · intro h
    exact prescriptions_mem_addPrescription tp d d' h
  · intro h
    unfold TreatedPatient.update at h
    dsimp only at h
    split at h
    · exact absurd h (by simp)
    · rw [Option.some_inj] at h
      have := congrArg Prod.fst h
      dsimp at this
      rw [← this]
      rfl

/-- Claim C6: the drug gate of `ResistantVirus.reproduce` blocks deterministically
(no dependence on any draw) whenever some active drug is one the particle is not
resistant to, and an empty `activeDrugs` list always passes the gate, after
which reproduction is decided by the draw against
`maxBirthProb * (1 - popDensity)`. -/
theorem resistant_reproduce_drug_gate (v : ResistantVirus) (pd : ℚ)
    (activeDrugs : List String) (d : ℚ) (mds : List ℚ) :
    ((∃ drug ∈ activeDrugs, v.isResistantTo drug ≠ some true) →
      v.reproduce pd activeDrugs d mds = none)
    ∧ (v.reproduce pd [] d mds
        = if d ≤ v.maxBirthProb * (1 - pd) then
            some ⟨v.maxBirthProb, v.clearProb,
                  mutateResistances v.resistances v.mutProb mds, v.mutProb⟩
          else none) := by
  constructor
  · rintro ⟨drug, hmem, hne⟩
    exact reproduce_blocked v pd activeDrugs d mds drug hmem
      ((truthy_eq_false_iff _).mpr hne)
  · exact reproduce_gate_pass v pd [] d mds (by simp)

/-- Claim C10: a drug name absent from a particle's resistance map yields the
absence value `none` from `isResistantTo` (neither `some true` nor
`some false`); such an unknown active drug blocks `reproduce` exactly like a
non-resisted drug, and in `getResistPop` a particle lacking a listed drug key is
never counted. -/
theorem unknown_drug_absent_blocks_and_not_counted (v : ResistantVirus)
    (drug : String) (habs : drug ∉ v.resistances.map Prod.fst) :
    v.isResistantTo drug = none
    ∧ (∀ (pd : ℚ) (activeDrugs : List String) (d : ℚ) (mds : List ℚ),
        drug ∈ activeDrugs → v.reproduce pd activeDrugs d mds = none)
    ∧ (∀ (vs : List ResistantVirus) (mp : ℤ) (pres drugList : List String),
        drug ∈ drugList →
        TreatedPatient.getResistPop ⟨v :: vs, mp, pres⟩ drugList
          = TreatedPatient.getResistPop ⟨vs, mp, pres⟩ drugList) := by
  have hnone : v.isResistantTo drug = none := dictGet_eq_none v.resistances drug habs
  refine ⟨hnone, ?_, ?_⟩
  · intro pd activeDrugs d mds hmem
    exact reproduce_blocked v pd activeDrugs d mds drug hmem (by simp [hnone, truthy])
  · intro vs mp pres drugList hmem
    rw [getResistPop_eq, getResistPop_eq]
    have hne : drugList.isEmpty = false := by
      cases drugList with
      | nil => cases hmem
      | cons a as => rfl
    simp only [hne, Bool.false_eq_true, if_false]
    have hpred : drugList.all (fun dr => truthy (v.isResistantTo dr)) = false := by
      rw [List.all_eq_false]
      exact ⟨drug, hmem, by simp [hnone, truthy]⟩
    show List.countP _ (v :: vs) = List.countP _ vs
    rw [List.countP_cons]
    simp [hpred]

/-- Claim C9: every offspring of `reproduce` (basic or resistant) carries
`maxBirthProb`, `clearProb` and — for the resistant variant — `mutProb` exactly
equal to its parent's; only the resistance trait values may differ, the key list
being preserved and each key's value flipping exactly when its own mutation draw
is at most `mutProb`. -/
theorem offspring_inherit_parent_parameters (v : SimpleVirus) (pd d : ℚ)
    (c : SimpleVirus) (w : ResistantVirus) (pd2 d2 : ℚ) (drugs : List String)
    (mds : List ℚ) (c2 : ResistantVirus) :
    (v.reproduce pd d = some c →
      c.maxBirthProb = v.maxBirthProb ∧ c.clearProb = v.clearProb)
    ∧ (w.reproduce pd2 drugs d2 mds = some c2 →
        c2.maxBirthProb = w.maxBirthProb ∧ c2.clearProb = w.clearProb
        ∧ c2.mutProb = w.mutProb
        ∧ c2.resistances.map Prod.fst = w.resistances.map Prod.fst
        ∧ ∀ (i : ℕ) (h1 : i < w.resistances.length) (h2 : i < mds.length)
            (h3 : i < c2.resistances.length),
            (c2.resistances.get ⟨i, h3⟩).2
              = if mds.get ⟨i, h2⟩ ≤ w.mutProb then !(w.resistances.get ⟨i, h1⟩).2
                else (w.resistances.get ⟨i, h1⟩).2) := by
  constructor
  · intro h
    unfold SimpleVirus.reproduce at h
    dsimp only at h
    split at h
    · rw [Option.some_inj] at h
      rw [← h]
      exact ⟨rfl, rfl⟩
    · exact absurd h (by simp)
  · intro h
    unfold ResistantVirus.reproduce at h
    dsimp only at h
    split at h
    · exact absurd h (by simp)
    · split at h
      · rw [Option.some_inj] at h
        have h' : c2 = ⟨w.maxBirthProb, w.clearProb,
            mutateResistances w.resistances w.mutProb mds, w.mutProb⟩ := h.symm
        subst h'
        refine ⟨rfl, rfl, rfl,
          mutateResistances_map_fst w.resistances w.mutProb mds, ?_⟩
        intro i h1 h2 h3
        exact congrArg Prod.snd
          (mutateResistances_get w.resistances w.mutProb mds i h1 h2 h3)
      · exact absurd h (by simp)

/-- Claim C3 (counterexample): at `popDensity = 1` the computed threshold
`maxBirthProb * (1 - popDensity)` is exactly `0`, and the draw `0.0` — a
possible outcome of `random.random()` in `[0,1)` — satisfies `0 <= 0`, so an
offspring IS produced, contradicting "no offspring is produced for any outcome
of the uniform random draw in [0,1)". -/
theorem reproduce_fires_at_density_one_draw_zero :
    SimpleVirus.reproduce ⟨1, 0⟩ 1 0 = some ⟨1, 0⟩ := by
  simp [SimpleVirus.reproduce, SimpleVirus.getMaxBirthProb, SimpleVirus.getClearProb]

/-- Claim C3 (amended): with `maxBirthProb > 0` and `popDensity >= 1` the
computed threshold `maxBirthProb * (1 - popDensity)` is `<= 0`, and no offspring
is produced for any draw in `[0,1)` except in the single boundary case
`popDensity = 1` with a draw of exactly `0` (the code compares with `<=`, so a
zero threshold still fires on a zero draw); in particular a strictly negative
threshold blocks every draw, and any strictly positive draw is blocked whenever
`popDensity >= 1`.  This holds for both reproduction variants. -/
theorem no_offspring_at_saturated_density (v : SimpleVirus) (w : ResistantVirus)
    (pd d : ℚ) (drugs : List String) (mds : List ℚ)
    (hv : 0 < v.maxBirthProb) (hw : 0 < w.maxBirthProb)
    (hpd : 1 ≤ pd) (hd : 0 ≤ d) (hor : 0 < d ∨ 1 < pd) :
    v.reproduce pd d = none ∧ w.reproduce pd drugs d mds = none := by
  have key : ∀ m : ℚ, 0 < m → m * (1 - pd) < d := by
    intro m hm
    rcases hor with h | h
    · have hmul : m * (1 - pd) ≤ 0 :=
        mul_nonpos_of_nonneg_of_nonpos (le_of_lt hm) (by linarith)
      linarith
    · have hmul : m * (1 - pd) < 0 := mul_neg_of_pos_of_neg hm (by linarith)
      linarith
  constructor
  · unfold SimpleVirus.reproduce
    dsimp only
    rw [if_neg (not_le.mpr (key v.getMaxBirthProb hv))]
  · unfold ResistantVirus.reproduce
    dsimp only
    split
    · rfl
    · rw [if_neg (not_le.mpr (key w.getMaxBirthProb hw))]

/-- Claim C4 (counterexample): with `clearProb = 0` a clearance draw of exactly
`0` — a possible outcome of `random.random()` in `[0,1)` — still satisfies the
code's `random.random() <= clearProb` test, so the particle is removed and the
population is NOT invariant for every outcome of the draws. -/
theorem zero_probs_not_invariant_at_zero_draw :
    (Patient.init [⟨0, 0⟩] 1).getTotalPop = 1
    ∧ (Patient.init [⟨0, 0⟩] 1).update [0] [] = some (Patient.mk [] 1, 0) := by
  constructor
  · rfl
  · have hdc : SimpleVirus.doesClear ⟨0, 0⟩ 0 = true := by
      simp [SimpleVirus.doesClear, SimpleVirus.getClearProb]
    simp [Patient.update, Patient.init, Patient.getViruses, Patient.getMaxPop,
      clearLoop, hdc]

/-- Claim C4 (amended): for a host (of either kind, with nonzero `maxPop`) whose
particles all have `clearProb = 0` and `maxBirthProb = 0`, every outcome in
which each uniform draw is strictly positive — all outcomes except those
containing a draw of exactly `0`, which the code's `<=` comparison treats as a
hit even at probability `0` — leaves the population exactly invariant across
all update() steps: no particle is removed and no offspring is produced. -/
theorem zero_probs_invariant_for_positive_draws
    (vs : List SimpleVirus) (mp : ℤ) (cds rds : List ℚ)
    (ws : List ResistantVirus) (mp2 : ℤ) (pres : List String)
    (cds2 : List ℚ) (rds2 : List (ℚ × List ℚ))
    (steps : List (List ℚ × List ℚ)) (steps2 : List (List ℚ × List (ℚ × List ℚ)))
    (hmp : mp ≠ 0) (hmp2 : mp2 ≠ 0)
    (hv : ∀ v ∈ vs, v.clearProb = 0 ∧ v.maxBirthProb = 0)
    (hw : ∀ v ∈ ws, v.clearProb = 0 ∧ v.maxBirthProb = 0)
    (hc : ∀ d ∈ cds, 0 < d) (hr : ∀ d ∈ rds, 0 < d)
    (hc2 : ∀ d ∈ cds2, 0 < d) (hr2 : ∀ d ∈ rds2, 0 < d.1)
    (hst : ∀ s ∈ steps, (∀ d ∈ s.1, 0 < d) ∧ (∀ d ∈ s.2, 0 < d))
    (hst2 : ∀ s ∈ steps2, (∀ d ∈ s.1, 0 < d) ∧ (∀ d ∈ s.2, 0 < d.1)) :
    Patient.update ⟨vs, mp⟩ cds rds = some (⟨vs, mp⟩, vs.length)
    ∧ TreatedPatient.update ⟨ws, mp2, pres⟩ cds2 rds2 = some (⟨ws, mp2, pres⟩, ws.length)
    ∧ Patient.run ⟨vs, mp⟩ steps = some ⟨vs, mp⟩
    ∧ TreatedPatient.run ⟨ws, mp2, pres⟩ steps2 = some ⟨ws, mp2, pres⟩ :=
  ⟨patient_update_invariant vs mp cds rds hmp hv hc hr,
   treated_update_invariant ws mp2 pres cds2 rds2 hmp2 hw hc2 hr2,
   patient_run_invariant vs mp steps hmp hv hst,
   treated_run_invariant ws mp2 pres steps2 hmp2 hw hst2⟩

/-- Claim C5: for a host (of either kind, with nonzero `maxPop`, per the
documented `maxPop` precondition) whose particles all have `clearProb = 1`, and
for every outcome of the clearance draws (each a uniform sample in `[0,1)`),
one `update()` call clears every particle, leaves no survivor to reproduce, and
returns `0`. -/
theorem clearProb_one_update_returns_zero
    (vs : List SimpleVirus) (mp : ℤ) (cds rds : List ℚ)
    (ws : List ResistantVirus) (mp2 : ℤ) (pres : List String)
    (cds2 : List ℚ) (rds2 : List (ℚ × List ℚ))
    (hmp : mp ≠ 0) (hmp2 : mp2 ≠ 0)
    (hlen : cds.length = vs.length) (hlen2 : cds2.length = ws.length)
    (hd : ∀ d ∈ cds, 0 ≤ d ∧ d < 1) (hd2 : ∀ d ∈ cds2, 0 ≤ d ∧ d < 1)
    (hv : ∀ v ∈ vs, v.clearProb = 1) (hw : ∀ v ∈ ws, v.clearProb = 1) :
    Patient.update ⟨vs, mp⟩ cds rds = some (⟨[], mp⟩, 0)
    ∧ TreatedPatient.update ⟨ws, mp2, pres⟩ cds2 rds2 = some (⟨[], mp2, pres⟩, 0) :=
  ⟨patient_update_all_clear vs mp cds rds hmp hlen
      (fun d hmem => (hd d hmem).2) hv,
   treated_update_all_clear ws mp2 pres cds2 rds2 hmp2 hlen2
      (fun d hmem => (hd2 d hmem).2) hw⟩

/-- Claim C2 (counterexample): constructing a `Patient` with `maxPop = 0`
succeeds — the constructor stores the arguments with no validation and raises
no configuration error — and the division-by-zero-equivalent density
computation is then hit inside `update()` (modelled as `none`,
Python `ZeroDivisionError`). -/
theorem construction_with_zero_maxPop_succeeds :
    (Patient.init [⟨0, 0⟩] 0).maxPop = 0
    ∧ (Patient.init [⟨0, 0⟩] 0).getViruses = [⟨0, 0⟩]
    ∧ (Patient.init [⟨0, 0⟩] 0).update [0] [] = none
    ∧ (TreatedPatient.init [] 0).maxPop = 0 := by
  refine ⟨rfl, rfl, ?_, rfl⟩
  simp [Patient.update, Patient.init, Patient.getMaxPop]

/-- Claim C2 (amended): construction of either host performs no validation and
always succeeds, simply storing `viruses` and `maxPop` as given (and an empty
prescription list for the treated host); with `maxPop = 0`, `update()` — not
construction — is where the failure occurs, as the density computation divides
by zero. -/
theorem init_stores_unvalidated_and_update_divides_by_zero
    (vs : List SimpleVirus) (mp : ℤ) (ws : List ResistantVirus)
    (cds rds : List ℚ) (cds2 : List ℚ) (rds2 : List (ℚ × List ℚ)) :
    (Patient.init vs mp).viruses = vs ∧ (Patient.init vs mp).maxPop = mp
    ∧ (TreatedPatient.init ws mp).viruses = ws
    ∧ (TreatedPatient.init ws mp).maxPop = mp
    ∧ (TreatedPatient.init ws mp).prescriptions = []
    ∧ (mp = 0 → (Patient.init vs mp).update cds rds = none)
    ∧ (mp = 0 → (TreatedPatient.init ws mp).update cds2 rds2 = none) := by
  refine ⟨rfl, rfl, rfl, rfl, rfl, ?_, ?_⟩
  · intro h
    simp [Patient.update, Patient.init, Patient.getMaxPop, h]
  · intro h
    simp [TreatedPatient.update, TreatedPatient.init, TreatedPatient.getMaxPop, h]

/-- Claim C1: one `update()` call (on either host, with nonzero `maxPop` and one
clearance draw per pre-step particle) decomposes as the spec demands: clearance
is decided for each pre-step particle independently (the survivor list is a
permutation of the per-particle filter of the pre-step population), the density
is computed once from the post-clearance count, exactly the survivors attempt
reproduction at that fixed density, every offspring derives from a survivor,
the committed population is survivors plus this step's offspring, and the
returned integer is its size. -/
theorem update_decomposes_into_survivors_and_offspring
    (p : Patient) (cds rds : List ℚ)
    (tp : TreatedPatient) (cds2 : List ℚ) (rds2 : List (ℚ × List ℚ))
    (hmp : p.maxPop ≠ 0) (hlen : cds.length = p.viruses.length)
    (hmp2 : tp.maxPop ≠ 0) (hlen2 : cds2.length = tp.viruses.length) :
    (∃ S off : List SimpleVirus,
      List.Perm S (survivorsSpec SimpleVirus.doesClear (p.viruses.zip cds))
      ∧ off = (S.zip rds).filterMap
          (fun vd => vd.1.reproduce ((S.length : ℚ) / (p.maxPop : ℚ)) vd.2)
      ∧ (∀ c ∈ off, ∃ v ∈ S, ∃ d ∈ rds,
          v.reproduce ((S.length : ℚ) / (p.maxPop : ℚ)) d = some c)
      ∧ p.update cds rds = some (⟨S ++ off, p.maxPop⟩, S.length + off.length))
    ∧ (∃ S off : List ResistantVirus,
      List.Perm S (survivorsSpec ResistantVirus.doesClear (tp.viruses.zip cds2))
      ∧ off = (S.zip rds2).filterMap
          (fun vd => vd.1.reproduce ((S.length : ℚ) / (tp.maxPop : ℚ))
            tp.getPrescriptions vd.2.1 vd.2.2)
      ∧ (∀ c ∈ off, ∃ v ∈ S, ∃ dm ∈ rds2,
          v.reproduce ((S.length : ℚ) / (tp.maxPop : ℚ))
            tp.getPrescriptions dm.1 dm.2 = some c)
      ∧ tp.update cds2 rds2
          = some (⟨S ++ off, tp.maxPop, tp.prescriptions⟩, S.length + off.length)) := by
  constructor
  · refine ⟨clearLoop SimpleVirus.doesClear (p.viruses.zip cds) p.viruses,
      _, clearLoop_perm SimpleVirus.doesClear p.viruses cds hlen, rfl, ?_, ?_⟩
    · intro c hc
      exact mem_filterMap_zip _ _ _ _ hc
    · simp [Patient.update, Patient.getViruses, Patient.getMaxPop, hmp,
        List.length_append]
  · refine ⟨clearLoop ResistantVirus.doesClear (tp.viruses.zip cds2) tp.viruses,
      _, clearLoop_perm ResistantVirus.doesClear tp.viruses cds2 hlen2, rfl, ?_, ?_⟩
    · intro c hc
      exact mem_filterMap_zip
        (fun (v : ResistantVirus) (dm : ℚ × List ℚ) =>
          v.reproduce
            (((clearLoop ResistantVirus.doesClear (tp.viruses.zip cds2)
                tp.viruses).length : ℚ) / (tp.maxPop : ℚ))
            tp.getPrescriptions dm.1 dm.2) _ _ _ hc
    · simp [TreatedPatient.update, TreatedPatient.getViruses, TreatedPatient.getMaxPop,
        TreatedPatient.getPrescriptions, hmp2, List.length_append]

/-! ## Witnesses: closed instances of the hypothesised claim theorems -/

/-- Witness for the amended C2 statement at a concrete zero-capacity host. -/
theorem init_stores_unvalidated_witness :
    (Patient.init [SimpleVirus.mk 0 0] 0).viruses = [SimpleVirus.mk 0 0]
    ∧ (Patient.init [SimpleVirus.mk 0 0] 0).maxPop = 0
    ∧ (TreatedPatient.init [] 0).viruses = []
    ∧ (TreatedPatient.init [] 0).maxPop = 0
    ∧ (TreatedPatient.init [] 0).prescriptions = []
    ∧ (Patient.init [SimpleVirus.mk 0 0] 0).update [0] [] = none
    ∧ (TreatedPatient.init [] 0).update [] [] = none := by
  have T := init_stores_unvalidated_and_update_divides_by_zero
    [SimpleVirus.mk 0 0] 0 [] [0] [] [] []
  exact ⟨T.1, T.2.1, T.2.2.1, T.2.2.2.1, T.2.2.2.2.1,
    T.2.2.2.2.2.1 rfl, T.2.2.2.2.2.2 rfl⟩

/-- Witness for the amended C3 statement: density 2, draw 0, maxBirthProb 1. -/
theorem no_offspring_at_saturated_density_witness :
    (0 : ℚ) < 1 ∧ (1 : ℚ) ≤ 2 ∧ (0 : ℚ) ≤ 0 ∧ (1 : ℚ) < 2
    ∧ SimpleVirus.reproduce (SimpleVirus.mk 1 0) 2 0 = none
    ∧ ResistantVirus.reproduce (ResistantVirus.mk 1 0 [] 0) 2 [] 0 [] = none := by
  have T := no_offspring_at_saturated_density (SimpleVirus.mk 1 0)
    (ResistantVirus.mk 1 0 [] 0) 2 0 [] [] (by norm_num) (by norm_num)
    (by norm_num) (le_refl 0) (Or.inr (by norm_num))
  exact ⟨by norm_num, by norm_num, le_refl 0, by norm_num, T.1, T.2⟩

/-- Witness for the amended C4 statement: zero-probability particles, draws 1. -/
theorem zero_probs_invariant_witness :
    Patient.update (Patient.mk [SimpleVirus.mk 0 0] 1) [1] [1]
      = some (Patient.mk [SimpleVirus.mk 0 0] 1, 1)
    ∧ TreatedPatient.update
        (TreatedPatient.mk [ResistantVirus.mk 0 0 [("D", false)] 0] 1 ["D"])
        [1] [(1, [1])]
      = some (TreatedPatient.mk [ResistantVirus.mk 0 0 [("D", false)] 0] 1 ["D"], 1)
    ∧ Patient.run (Patient.mk [SimpleVirus.mk 0 0] 1) [([1], [1])]
      = some (Patient.mk [SimpleVirus.mk 0 0] 1)
    ∧ TreatedPatient.run
        (TreatedPatient.mk [ResistantVirus.mk 0 0 [("D", false)] 0] 1 ["D"])
        [([1], [(1, [1])])]
      = some (TreatedPatient.mk [ResistantVirus.mk 0 0 [("D", false)] 0] 1 ["D"]) := by
  have hone : ∀ d ∈ [(1 : ℚ)], 0 < d := by
    intro d hd
    rw [List.mem_singleton] at hd
    subst hd
    exact one_pos
  have honep : ∀ d ∈ [((1 : ℚ), [(1 : ℚ)])], 0 < d.1 := by
    intro d hd
    rw [List.mem_singleton] at hd
    subst hd
    exact one_pos
  have hv : ∀ v ∈ [SimpleVirus.mk 0 0], v.clearProb = 0 ∧ v.maxBirthProb = 0 := by
    intro v hv
    rw [List.mem_singleton] at hv
    subst hv
    exact ⟨rfl, rfl⟩
  have hw : ∀ v ∈ [ResistantVirus.mk 0 0 [("D", false)] 0],
      v.clearProb = 0 ∧ v.maxBirthProb = 0 := by
    intro v hv
    rw [List.mem_singleton] at hv
    subst hv
    exact ⟨rfl, rfl⟩
  have hst : ∀ s ∈ [([(1 : ℚ)], [(1 : ℚ)])],
      (∀ d ∈ s.1, 0 < d) ∧ (∀ d ∈ s.2, 0 < d) := by
    intro s hs
    rw [List.mem_singleton] at hs
    subst hs
    exact ⟨hone, hone⟩
  have hst2 : ∀ s ∈ [([(1 : ℚ)], [((1 : ℚ), [(1 : ℚ)])])],
      (∀ d ∈ s.1, 0 < d) ∧ (∀ d ∈ s.2, 0 < d.1) := by
    intro s hs
    rw [List.mem_singleton] at hs
    subst hs
    exact ⟨hone, honep⟩
  exact zero_probs_invariant_for_positive_draws
    [SimpleVirus.mk 0 0] 1 [1] [1]
    [ResistantVirus.mk 0 0 [("D", false)] 0] 1 ["D"] [1] [(1, [1])]
    [([1], [1])] [([1], [(1, [1])])]
    (by decide) (by decide) hv hw hone hone hone honep hst hst2

/-- Witness for C5 at a concrete host whose single particle has clearProb 1. -/
theorem clearProb_one_witness :
    Patient.update (Patient.mk [SimpleVirus.mk 0 1] 3) [0] []
      = some (Patient.mk [] 3, 0)
    ∧ TreatedPatient.update (TreatedPatient.mk [ResistantVirus.mk 0 1 [] 0] 3 []) [0] []
      = some (TreatedPatient.mk [] 3 [], 0) := by
  have hd : ∀ d ∈ [(0 : ℚ)], 0 ≤ d ∧ d < 1 := by
    intro d hd
    rw [List.mem_singleton] at hd
    subst hd
    exact ⟨le_refl 0, one_pos⟩
  have hv : ∀ v ∈ [SimpleVirus.mk 0 1], v.clearProb = 1 := by
    intro v hv
    rw [List.mem_singleton] at hv
    subst hv
    rfl
  have hw : ∀ v ∈ [ResistantVirus.mk 0 1 [] 0], v.clearProb = 1 := by
    intro v hv
    rw [List.mem_singleton] at hv
    subst hv
    rfl
  exact clearProb_one_update_returns_zero [SimpleVirus.mk 0 1] 3 [0] []
    [ResistantVirus.mk 0 1 [] 0] 3 [] [0] []
    (by decide) (by decide) rfl rfl hd hd hv hw

/-- Witness for C6 at a particle not resistant to the single active drug. -/
theorem resistant_reproduce_drug_gate_witness :
    (∃ drug ∈ ["D"],
      (ResistantVirus.mk 1 0 [("D", false)] 0).isResistantTo drug ≠ some true)
    ∧ ResistantVirus.reproduce (ResistantVirus.mk 1 0 [("D", false)] 0) 0 ["D"] 0 []
        = none := by
  have hex : ∃ drug ∈ ["D"],
      (ResistantVirus.mk 1 0 [("D", false)] 0).isResistantTo drug ≠ some true := by
    refine ⟨"D", by simp, ?_⟩
    simp [ResistantVirus.isResistantTo, ResistantVirus.getResistances, dictGet]
  exact ⟨hex,
    (resistant_reproduce_drug_gate (ResistantVirus.mk 1 0 [("D", false)] 0)
      0 ["D"] 0 []).1 hex⟩

/-- Witness for C8 on a concrete treated patient already prescribed "A". -/
theorem addPrescription_idempotent_witness :
    ((TreatedPatient.mk [] 5 ["A"]).addPrescription "A").addPrescription "A"
      = (TreatedPatient.mk [] 5 ["A"]).addPrescription "A"
    ∧ "A" ∈ ((TreatedPatient.mk [] 5 ["A"]).addPrescription "A").getPrescriptions
    ∧ "A" ∈ (TreatedPatient.mk [] 5 ["A"]).getPrescriptions
    ∧ "A" ∈ ((TreatedPatient.mk [] 5 ["A"]).addPrescription "B").getPrescriptions
    ∧ (TreatedPatient.mk [] 5 ["A"]).update [] []
        = some (TreatedPatient.mk [] 5 ["A"], 0)
    ∧ (TreatedPatient.mk [] 5 ["A"]).getPrescriptions
        = (TreatedPatient.mk [] 5 ["A"]).getPrescriptions := by
  have hmem : "A" ∈ (TreatedPatient.mk [] 5 ["A"]).getPrescriptions := by
    simp [TreatedPatient.getPrescriptions]
  have hupd : (TreatedPatient.mk [] 5 ["A"]).update [] []
      = some (TreatedPatient.mk [] 5 ["A"], 0) := by
    simp [TreatedPatient.update, TreatedPatient.getViruses, TreatedPatient.getMaxPop,
      TreatedPatient.getPrescriptions, clearLoop]
  have T := addPrescription_idempotent_and_monotone (TreatedPatient.mk [] 5 ["A"])
    "A" "B" [] [] (TreatedPatient.mk [] 5 ["A"]) 0
  exact ⟨T.1, T.2.1, hmem, T.2.2.1 hmem, hupd, T.2.2.2 hupd⟩

/-- Witness for C9 at a concrete reproducing parent of each kind (resistant
parent with `mutProb = 1` and one mutation draw of `0`, so the single trait
flips while all probability parameters are inherited unchanged). -/
theorem offspring_inherit_witness :
    SimpleVirus.reproduce (SimpleVirus.mk (1/3) (1/4)) 0 0
      = some (SimpleVirus.mk (1/3) (1/4))
    ∧ ResistantVirus.reproduce (ResistantVirus.mk (1/3) (1/4) [("D", true)] 1)
        0 [] 0 [0]
      = some (ResistantVirus.mk (1/3) (1/4) [("D", false)] 1)
    ∧ ((SimpleVirus.mk (1/3) (1/4)).maxBirthProb = (1 : ℚ)/3
        ∧ (SimpleVirus.mk (1/3) (1/4)).clearProb = (1 : ℚ)/4)
    ∧ ((ResistantVirus.mk (1/3) (1/4) [("D", false)] 1).maxBirthProb
          = (ResistantVirus.mk (1/3) (1/4) [("D", true)] 1).maxBirthProb
        ∧ (ResistantVirus.mk (1/3) (1/4) [("D", false)] 1).clearProb
          = (ResistantVirus.mk (1/3) (1/4) [("D", true)] 1).clearProb
        ∧ (ResistantVirus.mk (1/3) (1/4) [("D", false)] 1).mutProb
          = (ResistantVirus.mk (1/3) (1/4) [("D", true)] 1).mutProb
        ∧ (ResistantVirus.mk (1/3) (1/4) [("D", false)] 1).resistances.map Prod.fst
          = (ResistantVirus.mk (1/3) (1/4) [("D", true)] 1).resistances.map Prod.fst) := by
  have hle : (0 : ℚ) ≤ 1/3 * (1 - 0) := by norm_num
  have hsimple : SimpleVirus.reproduce (SimpleVirus.mk (1/3) (1/4)) 0 0
      = some (SimpleVirus.mk (1/3) (1/4)) := by
    simp only [SimpleVirus.reproduce, SimpleVirus.getMaxBirthProb,
      SimpleVirus.getClearProb, if_pos hle]
  have hres : ResistantVirus.reproduce (ResistantVirus.mk (1/3) (1/4) [("D", true)] 1)
      0 [] 0 [0]
      = some (ResistantVirus.mk (1/3) (1/4) [("D", false)] 1) := by
    have hm : (0 : ℚ) ≤ 1 := zero_le_one
    simp only [ResistantVirus.reproduce, ResistantVirus.getMaxBirthProb,
      ResistantVirus.getClearProb, ResistantVirus.getResistances,
      ResistantVirus.getMutProb, List.foldl_nil, Bool.false_eq_true, if_neg,
      if_pos hle, mutateResistances, if_pos hm, Bool.not_true]
    simp
  have T := offspring_inherit_parent_parameters (SimpleVirus.mk (1/3) (1/4)) 0 0
    (SimpleVirus.mk (1/3) (1/4)) (ResistantVirus.mk (1/3) (1/4) [("D", true)] 1)
    0 0 [] [0] (ResistantVirus.mk (1/3) (1/4) [("D", false)] 1)
  have T1 := T.1 hsimple
  have T2 := T.2 hres
  exact ⟨hsimple, hres, ⟨T1.1, T1.2⟩, ⟨T2.1, T2.2.1, T2.2.2.1, T2.2.2.2.1⟩⟩

/-- Witness for C10 at a particle whose map lacks the active drug "E". -/
theorem unknown_drug_witness :
    "E" ∉ (ResistantVirus.mk 0 0 [("D", true)] 0).resistances.map Prod.fst
    ∧ (ResistantVirus.mk 0 0 [("D", true)] 0).isResistantTo "E" = none
    ∧ ResistantVirus.reproduce (ResistantVirus.mk 0 0 [("D", true)] 0) 0 ["E"] 0 []
        = none
    ∧ TreatedPatient.getResistPop
        (TreatedPatient.mk [ResistantVirus.mk 0 0 [("D", true)] 0] 5 []) ["E"]
      = TreatedPatient.getResistPop (TreatedPatient.mk [] 5 []) ["E"] := by
  have habs : "E" ∉ (ResistantVirus.mk 0 0 [("D", true)] 0).resistances.map Prod.fst := by
    decide
  have T := unknown_drug_absent_blocks_and_not_counted
    (ResistantVirus.mk 0 0 [("D", true)] 0) "E" habs
  exact ⟨habs, T.1, T.2.1 0 ["E"] 0 [] (by decide), T.2.2 [] 5 [] ["E"] (by decide)⟩

/-- Witness for C1 at concrete one-particle hosts with capacity 10. -/
theorem update_decomposition_witness :
    ((10 : ℤ) ≠ 0)
    ∧ ([(1 : ℚ)].length = [SimpleVirus.mk 0 0].length)
    ∧ (∃ S off : List SimpleVirus,
        List.Perm S (survivorsSpec SimpleVirus.doesClear
          ([SimpleVirus.mk 0 0].zip [(1 : ℚ)]))
        ∧ off = (S.zip [(1 : ℚ)]).filterMap
            (fun vd => vd.1.reproduce ((S.length : ℚ) / ((10 : ℤ) : ℚ)) vd.2)
        ∧ (∀ c ∈ off, ∃ v ∈ S, ∃ d ∈ [(1 : ℚ)],
            v.reproduce ((S.length : ℚ) / ((10 : ℤ) : ℚ)) d = some c)
        ∧ (Patient.mk [SimpleVirus.mk 0 0] 10).update [1] [1]
            = some (Patient.mk (S ++ off) 10, S.length + off.length))
    ∧ (∃ S off : List ResistantVirus,
        List.Perm S (survivorsSpec ResistantVirus.doesClear
          ([ResistantVirus.mk 0 0 [("D", true)] 0].zip [(1 : ℚ)]))
        ∧ off = (S.zip [((1 : ℚ), [(1 : ℚ)])]).filterMap
            (fun vd => vd.1.reproduce ((S.length : ℚ) / ((10 : ℤ) : ℚ))
              ["D"] vd.2.1 vd.2.2)
        ∧ (∀ c ∈ off, ∃ v ∈ S, ∃ dm ∈ [((1 : ℚ), [(1 : ℚ)])],
            v.reproduce ((S.length : ℚ) / ((10 : ℤ) : ℚ)) ["D"] dm.1 dm.2 = some c)
        ∧ (TreatedPatient.mk [ResistantVirus.mk 0 0 [("D", true)] 0] 10 ["D"]).update
              [1] [(1, [1])]
            = some (TreatedPatient.mk (S ++ off) 10 ["D"],
                S.length + off.length)) := by
  have T := update_decomposes_into_survivors_and_offspring
    (Patient.mk [SimpleVirus.mk 0 0] 10) [1] [1]
    (TreatedPatient.mk [ResistantVirus.mk 0 0 [("D", true)] 0] 10 ["D"])
    [1] [(1, [1])] (by decide) rfl (by decide) rfl
  exact ⟨by decide, rfl, T.1, T.2⟩
